import Mathlib

/-!
# Verification of `foreground-child` (src/index.ts)

A shallow embedding of the process proxy and exit-mirroring engine of
`foreground-child`.  The source consists of:

* `proxy(parent, child)` — attaches the signal, stream and message relays,
  subscribes the parent's `exit` event and the child's `close` event, and
  resolves a promise with a "close function" (`CloseFn`) when the child
  closes (src/index.ts lines 70-109);
* `spawn(file, args?, options?)` — the modern entry point
  (src/index.ts lines 166-184);
* `getStdio(base, withIpc)` — the stdio policy (src/index.ts lines 198-212);
* `foregroundChild(...)` — the legacy entry point
  (src/index.ts lines 276-325);
* `proxySignals` / `proxyMessages` / `proxyStreams` — the relays
  (src/index.ts lines 335-417).

Event-listener registration is modelled by an explicit listener multiset
with unique identifiers (Node's `removeListener` removes a single matching
registration by function identity; each attach creates a fresh closure, so
fresh identifiers model it faithfully).  Side effects of handlers are
modelled as explicit step traces.
-/

namespace ForegroundChild

/-! ## JavaScript value model

Only the value shapes that the embedded expressions can produce are needed:
numbers (integral in all uses), strings, booleans, `null`, `undefined`, and
`NaN` (for totality of the arithmetic coercions). -/

inductive JSVal : Type
  | num (n : Int)
  | nan
  | str (s : String)
  | bool (b : Bool)
  | null
  | undefined
deriving DecidableEq, Repr

/-- JavaScript ToString on the values above (`String(v)`). -/
def jsToString : JSVal → String
  | .num n => toString n
  | .nan => "NaN"
  | .str s => s
  | .bool b => if b then "true" else "false"
  | .null => "null"
  | .undefined => "undefined"

/-- JavaScript ToNumber on the values above; `.nan` represents NaN.
String parsing only needs the integral case here. -/
def jsToNumber : JSVal → JSVal
  | .num n => .num n
  | .nan => .nan
  | .bool b => .num (if b then 1 else 0)
  | .null => .num 0
  | .undefined => .nan
  | .str s =>
    if s = "" then .num 0
    else match s.toInt? with
      | some n => .num n
      | none => .nan

/-- JavaScript `+`: string concatenation when either operand is a string,
numeric addition otherwise. -/
def jsAdd (a b : JSVal) : JSVal :=
  match a, b with
  | .str s, b => .str (s ++ jsToString b)
  | a, .str s => .str (jsToString a ++ s)
  | a, b =>
    match jsToNumber a, jsToNumber b with
    | .num x, .num y => .num (x + y)
    | _, _ => .nan

/-- JavaScript truthiness. -/
def jsTruthy : JSVal → Bool
  | .num n => n ≠ 0
  | .nan => false
  | .str s => s ≠ ""
  | .bool b => b
  | .null => false
  | .undefined => false

/-- The `code` argument of a `close` event (`number | null`) as a JS value. -/
def jsOfCode : Option Int → JSVal
  | some c => .num c
  | none => .null

/-- The `signal` argument of a `close` event (`string | null`) as a JS value. -/
def jsOfSignal : Option String → JSVal
  | some s => .str s
  | none => .null

/-! ## Event-listener state

A registered listener is identified by the event name and a unique
identifier (standing for the identity of the JS closure registered).
`ProcState` is the listener table of one process object, together with a
counter supplying fresh identifiers. -/

structure Listener : Type where
  event : String
  id : Nat
deriving DecidableEq, Repr

structure ProcState : Type where
  listeners : List Listener
  nextId : Nat
deriving DecidableEq, Repr

/-- Well-formedness: every registered identifier was drawn from the counter. -/
def ProcState.WF (st : ProcState) : Prop :=
  ∀ l ∈ st.listeners, l.id < st.nextId

instance (st : ProcState) : Decidable st.WF :=
  List.decidableBAll _ st.listeners

/-- Remove the first occurrence of an element (Node's `removeListener`
removes a single matching registration; identifiers are unique, so which
occurrence is immaterial). -/
def eraseFirst {α : Type} [DecidableEq α] : List α → α → List α
  | [], _ => []
  | x :: xs, a => if x = a then xs else x :: eraseFirst xs a

/-- `emitter.on(event, listener)`: registers a fresh listener. -/
def ProcState.addListener (st : ProcState) (event : String) :
    ProcState × Listener :=
  (⟨st.listeners ++ [⟨event, st.nextId⟩], st.nextId + 1⟩, ⟨event, st.nextId⟩)

/-- `emitter.removeListener(event, listener)`: removes that registration if
present, otherwise does nothing. -/
def ProcState.removeListener (st : ProcState) (l : Listener) : ProcState :=
  ⟨eraseFirst st.listeners l, st.nextId⟩

/-- `emitter.removeAllListeners(event)`. -/
def ProcState.removeAllListeners (st : ProcState) (event : String) : ProcState :=
  ⟨st.listeners.filter (fun l => l.event ≠ event), st.nextId⟩

/-- Register one listener per event name, in order (the `for` loop of
`proxySignals`, src/index.ts lines 338-342); returns the listeners added. -/
def attachAll (st : ProcState) : List String → ProcState × List Listener
  | [] => (st, [])
  | e :: es =>
    let p := st.addListener e
    let q := attachAll p.1 es
    (q.1, p.2 :: q.2)

/-- Remove a list of listeners in order (the loop of `unproxySignals`,
src/index.ts lines 346-350; the `Map` iterates in insertion order). -/
def detachAll : ProcState → List Listener → ProcState
  | st, [] => st
  | st, l :: ls => detachAll (st.removeListener l) ls

/-- The listeners created by registering `es` starting at identifier `n`. -/
def mkLs (n : Nat) : List String → List Listener
  | [] => []
  | e :: es => ⟨e, n⟩ :: mkLs (n + 1) es

/-! ## Process handles and system state -/

/-- The signal list returned by `signalExit.signals()` (dependency
`signal-exit`, iterated by `proxySignals`, src/index.ts line 338), on a
POSIX non-Linux host.  The theorems below do not depend on the exact
membership of this list, only on it not containing the event names
`"message"`, `"exit"` and `"close"`. -/
def signalExitSignals : List String :=
  ["SIGABRT", "SIGALRM", "SIGHUP", "SIGINT", "SIGTERM",
   "SIGVTALRM", "SIGXCPU", "SIGXFSZ", "SIGUSR2", "SIGTRAP",
   "SIGSYS", "SIGQUIT", "SIGIOT"]

/-- The data of a `ProcessLike` parent (src/index.ts lines 20-43) needed by
the control logic: its pid, whether `parent.send` is defined, and whether
the handle is the global `process` object (the `parent === process`
comparison at src/index.ts line 92). -/
structure ParentHandle : Type where
  pid : Nat
  hasSend : Bool
  isRealProcess : Bool
deriving DecidableEq, Repr

/-- Which of the child's stream objects are non-null (`proxyStreams` guards
each pipe with `typeof child.stdout === "object" && child.stdout !== null`,
src/index.ts lines 393-402; with stdio `"inherit"` they are null). -/
structure ChildStreams : Type where
  hasStdout : Bool
  hasStderr : Bool
  hasStdin : Bool
deriving DecidableEq, Repr

/-- Observable mutable state of the parent/child pair: the two listener
tables, the set of active stream pipes, and `process.exitCode`. -/
structure Sys : Type where
  parent : ProcState
  child : ProcState
  pipes : List String
  exitCodeVal : JSVal
deriving DecidableEq, Repr

/-- Side effects performed by close functions and event handlers. -/
inductive Effect : Type
  | setTimeoutNoop (ms : Nat)
  | parentKill (pid : Nat) (signal : String)
  | parentExitVal (v : JSVal)
  | childKill (signal : String)
deriving DecidableEq, Repr

/-- Micro-steps of the engine, recorded in traces in execution order. -/
inductive Step : Type
  | spawnChildProc (file : String) (args : List String)
  | removeAllMessageListeners
  | attachSignalRelay
  | attachStreamRelay
  | attachMessageRelay
  | addParentExitListener
  | addChildCloseListener
  | detachMessages
  | detachStreams
  | detachSignals
  | removeParentExitListener
  | setParentExitCode (v : JSVal)
  | constructCloseAction
  | resolvePromise
  | invokeCallback
  | effect (e : Effect)
deriving DecidableEq, Repr

/-- The effects contained in a step trace. -/
def effectsOf (ts : List Step) : List Effect :=
  ts.filterMap fun s =>
    match s with
    | .effect e => some e
    | _ => none

/-- Termination effects on the parent: `parent.kill` and `parent.exit`. -/
def isTermEffect : Effect → Bool
  | .parentKill _ _ => true
  | .parentExitVal _ => true
  | _ => false

/-- The parent-termination effects contained in a step trace. -/
def termEffects (ts : List Step) : List Effect :=
  (effectsOf ts).filter isTermEffect

/-- Number of processes created in a step trace. -/
def countSpawnSteps (ts : List Step) : Nat :=
  ts.countP fun s =>
    match s with
    | .spawnChildProc _ _ => true
    | _ => false

/-- The steps preceding the construction of the close action. -/
def stepsBeforeConstruct (ts : List Step) : List Step :=
  ts.takeWhile fun s =>
    match s with
    | .constructCloseAction => false
    | _ => true

/-- `true` iff the removal of the parent-exit listener occurs in the trace
before any parent-termination effect (vacuously true when no termination
effect occurs). -/
def removalPrecedesTermination : List Step → Bool
  | [] => true
  | s :: rest =>
    match s with
    | .removeParentExitListener => true
    | .effect e => if isTermEffect e then false else removalPrecedesTermination rest
    | _ => removalPrecedesTermination rest

/-! ## StdioPolicy: `getStdio` (src/index.ts lines 198-212) -/

/-- One element of an `stdio` array: a string mode (`"pipe"`, `"inherit"`,
`"ignore"`, `"ipc"`, ...), a file descriptor number, `null`, or a stream
object.  `Array.prototype.indexOf("ipc")` compares with strict equality, so
only the `str "ipc"` element counts as an IPC slot. -/
inductive StdioElem : Type
  | str (s : String)
  | fd (n : Int)
  | null
  | stream (id : Nat)
deriving DecidableEq, Repr

/-- A `cp.StdioOptions` value: a single shared mode string or a
per-descriptor array. -/
inductive StdioOpt : Type
  | str (s : String)
  | arr (l : List StdioElem)
deriving DecidableEq, Repr

/-- `getStdio(base, withIpc)` (src/index.ts lines 198-212): default the
base to `"inherit"`, return it unchanged when no IPC is needed, expand a
single mode string to three copies plus an `"ipc"` slot, append an `"ipc"`
slot to an array lacking one, and return an array already containing one
unchanged. -/
def getStdio (base : Option StdioOpt) (withIpc : Bool) : StdioOpt :=
  let base := match base with
    | none => .str "inherit"
    | some b => b
  if !withIpc then base
  else match base with
    | .str s => .arr [.str s, .str s, .str s, .str "ipc"]
    | .arr l =>
      if (StdioElem.str "ipc") ∈ l then .arr l
      else .arr (l ++ [.str "ipc"])

/-! ## Spawn options (src/index.ts lines 117-134 and 166-184) -/

/-- Reference to a spawn function: the host's `cp.spawn` or a caller
override (`options.spawn`). -/
inductive SpawnFnRef : Type
  | hostDefault
  | custom (id : Nat)
deriving DecidableEq, Repr

/-- The recognized fields of `SpawnOptions`: `parent` and `spawn` (specific
to foreground-child), `stdio`, and all remaining pass-through
process-creation fields (`cwd`, `env`, ...) as an opaque association list.
`none` models an absent (or `undefined`) field. -/
structure SpawnOptsM : Type where
  parent : Option ParentHandle
  spawnFn : Option SpawnFnRef
  stdio : Option StdioOpt
  rest : List (String × JSVal)
deriving DecidableEq, Repr

/-- The empty options object `{}`. -/
def SpawnOptsM.empty : SpawnOptsM :=
  ⟨none, none, none, []⟩

/-- The argument normalization and option processing of `spawn`
(src/index.ts lines 166-181): default `args` to `[]` and `options` to `{}`,
resolve `parent` and the spawn function, and build the options object
passed to the underlying spawn call:
`{...options, stdio: getStdio(options.stdio, parent.send !== undefined),
parent: undefined, spawn: undefined}`. -/
structure SpawnEntryResult : Type where
  parentUsed : ParentHandle
  spawnFnUsed : SpawnFnRef
  argsUsed : List String
  childOptions : SpawnOptsM
deriving DecidableEq, Repr

def spawnEntryOptions (proc : ParentHandle) (args : Option (List String))
    (options : Option SpawnOptsM) : SpawnEntryResult :=
  let args := match args with
    | none => []
    | some a => a
  let options := match options with
    | none => SpawnOptsM.empty
    | some o => o
  let parent : ParentHandle := match options.parent with
    | some p => p
    | none => proc
  let spawnFn : SpawnFnRef := match options.spawnFn with
    | some f => f
    | none => .hostDefault
  { parentUsed := parent,
    spawnFnUsed := spawnFn,
    argsUsed := args,
    childOptions :=
      { options with
        stdio := some (getStdio options.stdio parent.hasSend),
        parent := none,
        spawnFn := none } }

/-! ## Relay wiring (modern path: `proxy`, src/index.ts lines 70-109) -/

/-- The pipes established by `proxyStreams` (src/index.ts lines 393-403):
`child.stdout → parent.stdout`, `child.stderr → parent.stderr`,
`parent.stdin → child.stdin`, each only when the child stream exists. -/
def pipeNames (cs : ChildStreams) : List String :=
  (if cs.hasStdout then ["stdout"] else []) ++
  (if cs.hasStderr then ["stderr"] else []) ++
  (if cs.hasStdin then ["stdin"] else [])

/-- `unproxyStreams` (src/index.ts lines 406-416): unpipe each connection
whose child stream exists. -/
def unproxyStreamsPipes (cs : ChildStreams) (ps : List String) : List String :=
  let p1 := if cs.hasStdout then eraseFirst ps "stdout" else ps
  let p2 := if cs.hasStderr then eraseFirst p1 "stderr" else p1
  if cs.hasStdin then eraseFirst p2 "stdin" else p2

/-- Result of wiring the relays around a freshly spawned child: the system
state, the listeners each relay registered (`msgAtt` is `none` when
`parent.send` is undefined and `proxyMessages` attached nothing,
src/index.ts lines 362-364), the parent-exit listener, the child-close
listener, and the step trace of the setup. -/
structure Wiring : Type where
  sys : Sys
  sigAtt : List Listener
  msgAtt : Option (Listener × Listener)
  exitL : Listener
  closeL : Listener
  steps : List Step
deriving Repr

/-- `proxyMessages` attach (src/index.ts lines 361-375): when the parent
has `send`, register a `"message"` listener on the child and one on the
parent; otherwise attach nothing. -/
def proxyMessagesAttach (hasSend : Bool) (parent child : ProcState) :
    ProcState × ProcState × Option (Listener × Listener) :=
  if hasSend then
    let c := child.addListener "message"
    let p := parent.addListener "message"
    (p.1, c.1, some (p.2, c.2))
  else
    (parent, child, none)

/-- `unproxyMessages` (src/index.ts lines 379-382): remove the child and
parent `"message"` listeners; a no-op when nothing was attached. -/
def unproxyMessagesState (att : Option (Listener × Listener))
    (parent child : ProcState) : ProcState × ProcState :=
  match att with
  | none => (parent, child)
  | some (pl, cl) => (parent.removeListener pl, child.removeListener cl)

/-- The wiring performed by `spawn` + `proxy` (src/index.ts lines 166-184
and 70-77): spawn the child (a fresh process object, no listeners, no
pipes), then attach the signal relay, the stream relay and the message
relay, subscribe the parent's `"exit"` event, and subscribe the child's
`"close"` event, in source order. -/
def proxySetup (p : ParentHandle) (cs : ChildStreams) (file : String)
    (args : List String) (parent0 : ProcState) (exitCode0 : JSVal) : Wiring :=
  let child0 : ProcState := ⟨[], 0⟩
  let sig := attachAll parent0 signalExitSignals
  let pipes := pipeNames cs
  let msg := proxyMessagesAttach p.hasSend sig.1 child0
  let ex := msg.1.addListener "exit"
  let cl := msg.2.1.addListener "close"
  { sys := ⟨ex.1, cl.1, pipes, exitCode0⟩,
    sigAtt := sig.2,
    msgAtt := msg.2.2,
    exitL := ex.2,
    closeL := cl.2,
    steps := [.spawnChildProc file args, .attachSignalRelay,
              .attachStreamRelay, .attachMessageRelay,
              .addParentExitListener, .addChildCloseListener] }

/-- The handler `onParentExit` (src/index.ts lines 79-81) and its legacy
twin `childHangup` (src/index.ts lines 295-297): send SIGHUP to the child
when the parent exits. -/
def onParentExitSteps : List Step :=
  [.effect (.childKill "SIGHUP")]

/-- A close function (`CloseFn`, src/index.ts lines 50-55): the readonly
`code` and `signal` fields, and the invocation behaviour as a state
transformer producing a step trace. -/
structure CloseActionM : Type where
  code : Option Int
  signal : Option String
  run : Sys → Sys × List Step

/-- The close function constructed by `proxy`'s `onClose`
(src/index.ts lines 88-106): if `signal !== null`, optionally delay (only
when the parent is the global `process` object) and re-raise the signal on
the parent via `parent.kill(parent.pid, signal)`; otherwise exit the parent
with the child's code (`parent.exit(code!)` passes the raw value). -/
def mkProxyCloseAction (p : ParentHandle) (code : Option Int)
    (signal : Option String) : CloseActionM :=
  { code := code,
    signal := signal,
    run := fun st =>
      match signal with
      | some s =>
        (st, (if p.isRealProcess then [Step.effect (.setTimeoutNoop 200)] else []) ++
             [Step.effect (.parentKill p.pid s)])
      | none => (st, [Step.effect (.parentExitVal (jsOfCode code))]) }

/-- `onClose` of the modern path (src/index.ts lines 83-107), fired with
the child's `(code, signal)`: detach the message relay, the stream relay
and the signal relay, remove the parent-exit listener, then construct the
close function and resolve the promise with it. -/
def proxyOnClose (p : ParentHandle) (w : Wiring) (cs : ChildStreams)
    (st : Sys) (code : Option Int) (signal : Option String) :
    Sys × List Step × CloseActionM :=
  let m := unproxyMessagesState w.msgAtt st.parent st.child
  let st1 : Sys := { st with parent := m.1, child := m.2 }
  let st2 : Sys := { st1 with pipes := unproxyStreamsPipes cs st1.pipes }
  let st3 : Sys := { st2 with parent := detachAll st2.parent w.sigAtt }
  let st4 : Sys := { st3 with parent := st3.parent.removeListener w.exitL }
  (st4,
   [.detachMessages, .detachStreams, .detachSignals, .removeParentExitListener,
    .constructCloseAction, .resolvePromise],
   mkProxyCloseAction p code signal)

/-! ## Legacy entry point (`foregroundChild`, src/index.ts lines 276-325) -/

/-- The wiring performed by the legacy `foregroundChild` before the close
event (src/index.ts lines 285-297): spawn the child, and — if the process
has `send` — remove **all** existing `"message"` listeners from the parent;
then attach the signal relay and the message relay (no stream relay in this
path), and subscribe the parent's `"exit"` event and the child's `"close"`
event. -/
def legacySetup (proc : ParentHandle) (program : String) (args : List String)
    (parent0 : ProcState) (exitCode0 : JSVal) : Wiring :=
  let child0 : ProcState := ⟨[], 0⟩
  let par0 := if proc.hasSend then parent0.removeAllListeners "message" else parent0
  let sig := attachAll par0 signalExitSignals
  let msg := proxyMessagesAttach proc.hasSend sig.1 child0
  let ex := msg.1.addListener "exit"
  let cl := msg.2.1.addListener "close"
  { sys := ⟨ex.1, cl.1, [], exitCode0⟩,
    sigAtt := sig.2,
    msgAtt := msg.2.2,
    exitL := ex.2,
    closeL := cl.2,
    steps := [.spawnChildProc program args] ++
             (if proc.hasSend then [.removeAllMessageListeners] else []) ++
             [.attachSignalRelay, .attachMessageRelay,
              .addParentExitListener, .addChildCloseListener] }

/-- The eager exit-code assignment of the legacy close listener
(src/index.ts line 301): `process.exitCode = signal ? 128 + signal : code`.
`signal` is the signal *name* (a string or null), `?:` tests JavaScript
truthiness, and `+` on a number and a string is string concatenation. -/
def legacyEagerExitCode (code : Option Int) (signal : Option String) : JSVal :=
  if jsTruthy (jsOfSignal signal) then jsAdd (.num 128) (jsOfSignal signal)
  else jsOfCode code

/-- The close function handed to the legacy callback
(src/index.ts lines 303-321): on invocation it detaches the signal relay,
removes the parent-exit listener, and then — if `signal` is truthy —
schedules the 200 ms keep-alive timeout and re-raises the signal via
`process.kill(process.pid, signal)`, otherwise calls
`process.exit(process.exitCode)` with the current value of
`process.exitCode`. -/
def mkLegacyCloseAction (proc : ParentHandle) (sigAtt : List Listener)
    (exitL : Listener) (code : Option Int) (signal : Option String) :
    CloseActionM :=
  { code := code,
    signal := signal,
    run := fun st =>
      let st1 : Sys := { st with parent := detachAll st.parent sigAtt }
      let st2 : Sys := { st1 with parent := st1.parent.removeListener exitL }
      let pre : List Step := [.detachSignals, .removeParentExitListener]
      match signal with
      | some s =>
        if s = "" then (st2, pre ++ [Step.effect (.parentExitVal st.exitCodeVal)])
        else
          (st2, pre ++ [Step.effect (.setTimeoutNoop 200),
                        Step.effect (.parentKill proc.pid s)])
      | none => (st2, pre ++ [Step.effect (.parentExitVal st.exitCodeVal)]) }

/-- The legacy close listener (src/index.ts lines 299-322), fired with the
child's `(code, signal)`: first set `process.exitCode` eagerly as a side
effect, then construct the close function and invoke the callback with it
(the callback's actions are external and not part of this trace). -/
def legacyOnClose (proc : ParentHandle) (w : Wiring) (st : Sys)
    (code : Option Int) (signal : Option String) :
    Sys × List Step × CloseActionM :=
  let v := legacyEagerExitCode code signal
  let st1 : Sys := { st with exitCodeVal := v }
  (st1,
   [.setParentExitCode v, .constructCloseAction, .invokeCallback],
   mkLegacyCloseAction proc w.sigAtt w.exitL code signal)

/-- Observable behaviour of a user-supplied legacy callback: the value it
returns, and whether it (synchronously) invokes the close function it was
given.  The source calls `cb(done)` and discards the result
(src/index.ts line 303). -/
structure CbRun : Type where
  ret : JSVal
  invokesDone : Bool
deriving DecidableEq, Repr

/-- The complete observable outcome of the legacy close event: the engine's
own steps, followed by whatever the callback does with the close function.
The callback's *return value* is received by no one — the engine ignores
it. -/
def legacyAfterClose (proc : ParentHandle) (w : Wiring) (st : Sys)
    (code : Option Int) (signal : Option String) (r : CbRun) :
    Sys × List Step :=
  let o := legacyOnClose proc w st code signal
  if r.invokesDone then
    let d := o.2.2.run o.1
    (d.1, o.2.1 ++ d.2)
  else
    (o.1, o.2.1)

/-- Invoke a close action twice in sequence, collecting both traces. -/
def runTwiceSteps (a : CloseActionM) (st : Sys) : List Step :=
  let r1 := a.run st
  r1.2 ++ (a.run r1.1).2

/-! ## Listener accounting lemmas -/

theorem eraseFirst_append_of_not_mem {α : Type} [DecidableEq α] :
    ∀ (pre : List α) (post : List α) (x : α), x ∉ pre →
      eraseFirst (pre ++ x :: post) x = pre ++ post := by
  intro pre
  induction pre with
  | nil => intro post x _; simp [eraseFirst]
  | cons y pre ih =>
    intro post x hx
    have hyx : y ≠ x := fun h => hx (h ▸ List.mem_cons_self y pre)
    simp only [List.cons_append, eraseFirst, if_neg hyx, List.append_eq]
    rw [ih post x (fun h => hx (List.mem_cons_of_mem y h))]

theorem eraseFirst_of_not_mem {α : Type} [DecidableEq α] :
    ∀ (xs : List α) (x : α), x ∉ xs → eraseFirst xs x = xs := by
  intro xs
  induction xs with
  | nil => intro x _; rfl
  | cons y xs ih =>
    intro x hx
    have hyx : y ≠ x := fun h => hx (h ▸ List.mem_cons_self y xs)
    simp only [eraseFirst, if_neg hyx]
    rw [ih x (fun h => hx (List.mem_cons_of_mem y h))]

theorem attachAll_eq : ∀ (es : List String) (st : ProcState),
    attachAll st es =
      (⟨st.listeners ++ mkLs st.nextId es, st.nextId + es.length⟩,
       mkLs st.nextId es) := by
  intro es
  induction es with
  | nil => intro st; simp [attachAll, mkLs]
  | cons e es ih =>
    intro st
    simp only [attachAll, ProcState.addListener, ih, mkLs, List.length_cons]
    refine Prod.ext ?_ rfl
    simp [List.append_assoc]
    omega

theorem mem_mkLs_id : ∀ (es : List String) (n : Nat) (l : Listener),
    l ∈ mkLs n es → n ≤ l.id ∧ l.id < n + es.length := by
  intro es
  induction es with
  | nil => intro n l h; simp [mkLs] at h
  | cons e es ih =>
    intro n l h
    simp only [mkLs, List.mem_cons] at h
    rcases h with h | h
    · subst h
      constructor
      · exact Nat.le_refl n
      · simp only [List.length_cons]
        omega
    · have := ih (n + 1) l h
      simp only [List.length_cons]
      omega

theorem mem_mkLs_event : ∀ (es : List String) (n : Nat) (l : Listener),
    l ∈ mkLs n es → l.event ∈ es := by
  intro es
  induction es with
  | nil => intro n l h; simp [mkLs] at h
  | cons e es ih =>
    intro n l h
    simp only [mkLs, List.mem_cons] at h
    rcases h with h | h
    · subst h; simp
    · exact List.mem_cons_of_mem e (ih (n + 1) l h)

theorem detachAll_mkLs : ∀ (es : List String) (n : Nat)
    (pre post : List Listener) (m : Nat),
    (∀ l ∈ pre, l.id < n) →
    detachAll ⟨pre ++ (mkLs n es ++ post), m⟩ (mkLs n es) = ⟨pre ++ post, m⟩ := by
  intro es
  induction es with
  | nil => intro n pre post m _; simp [mkLs, detachAll]
  | cons e es ih =>
    intro n pre post m h
    simp only [mkLs, detachAll, ProcState.removeListener, List.cons_append]
    rw [eraseFirst_append_of_not_mem pre (mkLs (n + 1) es ++ post) ⟨e, n⟩
      (fun hmem => absurd (h _ hmem) (by simp))]
    exact ih (n + 1) pre post m (fun l hl => Nat.lt_succ_of_lt (h l hl))

theorem detachAll_of_not_mem : ∀ (ls : List Listener) (st : ProcState),
    (∀ l ∈ ls, l ∉ st.listeners) → detachAll st ls = st := by
  intro ls
  induction ls with
  | nil => intro st _; rfl
  | cons l ls ih =>
    intro st h
    simp only [detachAll, ProcState.removeListener]
    rw [eraseFirst_of_not_mem st.listeners l (h l (List.mem_cons_self l ls))]
    exact ih st (fun x hx => h x (List.mem_cons_of_mem l hx))

/-- Detaching the stream relay removes exactly the pipes it attached. -/
theorem unproxyStreams_pipeNames (cs : ChildStreams) :
    unproxyStreamsPipes cs (pipeNames cs) = [] := by
  rcases cs with ⟨a, b, c⟩
  cases a <;> cases b <;> cases c <;> rfl

/-! ## Concrete sample states (used to instantiate claims) -/

/-- A sample parent handle: the global `process`, with an IPC channel. -/
def sampleProc : ParentHandle := ⟨42, true, true⟩

/-- A sample initial parent listener table with one caller-installed
`"message"` listener. -/
def sampleParentState : ProcState := ⟨[⟨"message", 0⟩], 1⟩

/-- A sample system state with no listeners and no pipes. -/
def sampleSys : Sys := ⟨⟨[], 0⟩, ⟨[], 0⟩, [], .undefined⟩

/-- The wiring of the legacy entry point on the sample states. -/
def sampleLegacyWiring : Wiring :=
  legacySetup sampleProc "cat" ["file"] sampleParentState .undefined

/-! ## Claims -/

/-- C1: For every child termination observed by the proxy: if the child
exited with exit code `c` (signal null), the resolved close action carries
`code = c` and `signal = null`, and invoking it calls `parent.exit(c)`; if
the child was terminated by a signal `s` (code null), the close action
carries `signal = s` and `code = null`, and invoking it re-raises `s` on
the parent via `parent.kill(parent.pid, s)` (after the 200 ms keep-alive
timeout when the parent is the global process). -/
theorem c1_exit_and_signal_mirroring :
    ∀ (p : ParentHandle) (w : Wiring) (cs : ChildStreams) (st : Sys),
      (∀ c : Int,
        (proxyOnClose p w cs st (some c) none).2.2.code = some c ∧
        (proxyOnClose p w cs st (some c) none).2.2.signal = none ∧
        effectsOf ((proxyOnClose p w cs st (some c) none).2.2.run
            (proxyOnClose p w cs st (some c) none).1).2 =
          [Effect.parentExitVal (.num c)]) ∧
      (∀ s : String,
        (proxyOnClose p w cs st none (some s)).2.2.code = none ∧
        (proxyOnClose p w cs st none (some s)).2.2.signal = some s ∧
        effectsOf ((proxyOnClose p w cs st none (some s)).2.2.run
            (proxyOnClose p w cs st none (some s)).1).2 =
          (if p.isRealProcess then [Effect.setTimeoutNoop 200] else []) ++
            [Effect.parentKill p.pid s]) := by
  intro p w cs st
  constructor
  · intro c
    refine ⟨rfl, rfl, ?_⟩
    simp [proxyOnClose, mkProxyCloseAction, effectsOf, jsOfCode]
  · intro s
    refine ⟨rfl, rfl, ?_⟩
    cases hp : p.isRealProcess <;>
      simp [proxyOnClose, mkProxyCloseAction, effectsOf, hp]

/-- C7: The stdio policy is pure and total: an absent base defaults to
`"inherit"`; with no IPC the base is returned unchanged; with IPC a single
mode string `s` becomes `[s, s, s, "ipc"]`; a list lacking an `"ipc"` slot
gets one appended, and a list already containing one is returned
unchanged. -/
theorem c7_stdio_policy :
    getStdio none false = .str "inherit" ∧
    (∀ b : StdioOpt, getStdio (some b) false = b) ∧
    (∀ s : String,
      getStdio (some (.str s)) true = .arr [.str s, .str s, .str s, .str "ipc"]) ∧
    (∀ l : List StdioElem,
      getStdio (some (.arr l)) true =
        .arr (if (StdioElem.str "ipc") ∈ l then l else l ++ [.str "ipc"])) ∧
    getStdio none true =
      .arr [.str "inherit", .str "inherit", .str "inherit", .str "ipc"] := by
  refine ⟨rfl, fun b => rfl, fun s => rfl, fun l => ?_, rfl⟩
  by_cases h : (StdioElem.str "ipc") ∈ l <;> simp [getStdio, h]

/-- C8: The options object handed to the underlying spawn function
preserves every caller-supplied field (`rest`) unchanged, removes the
`parent` and `spawn` fields, and replaces `stdio` with the stdio-policy
result computed from the resolved parent's send capability; when omitted,
`parent` defaults to the host process, the spawn function defaults to the
host's standard one, `args` defaults to `[]`, and `stdio` defaults to
`"inherit"`. -/
theorem c8_spawn_options_frame :
    (∀ (proc : ParentHandle) (args : List String) (o : SpawnOptsM),
      (spawnEntryOptions proc (some args) (some o)).childOptions.rest = o.rest ∧
      (spawnEntryOptions proc (some args) (some o)).childOptions.parent = none ∧
      (spawnEntryOptions proc (some args) (some o)).childOptions.spawnFn = none ∧
      (spawnEntryOptions proc (some args) (some o)).childOptions.stdio =
        some (getStdio o.stdio
          (spawnEntryOptions proc (some args) (some o)).parentUsed.hasSend) ∧
      (spawnEntryOptions proc (some args) (some o)).argsUsed = args) ∧
    (∀ (proc : ParentHandle) (args : List String) (o : SpawnOptsM),
      (spawnEntryOptions proc (some args)
        (some { o with parent := none })).parentUsed = proc ∧
      (spawnEntryOptions proc (some args)
        (some { o with spawnFn := none })).spawnFnUsed = .hostDefault) ∧
    (∀ proc : ParentHandle,
      spawnEntryOptions proc none none =
        ⟨proc, .hostDefault, [],
         ⟨none, none, some (getStdio none proc.hasSend), []⟩⟩) ∧
    getStdio none false = .str "inherit" := by
  refine ⟨fun proc args o => ⟨rfl, rfl, rfl, rfl, rfl⟩,
          fun proc args o => ⟨rfl, rfl⟩, fun proc => rfl, rfl⟩

/-- C4: In the legacy entry point, as soon as the child's close event fires
and before the callback runs, `process.exitCode` is set eagerly as a side
effect.  The non-signal case matches the claim (the child's exit code), but
in the signal case the source computes `128 + signal` where `signal` is the
signal *name*: JavaScript string concatenation, yielding the string
`"128SIGTERM"` rather than `128` plus the signal's number (143 for
SIGTERM). -/
theorem c4_legacy_eager_exit_code :
    (∀ (proc : ParentHandle) (w : Wiring) (st : Sys) (code : Option Int)
       (signal : Option String),
      (legacyOnClose proc w st code signal).1.exitCodeVal =
        legacyEagerExitCode code signal ∧
      (legacyOnClose proc w st code signal).2.1 =
        [.setParentExitCode (legacyEagerExitCode code signal),
         .constructCloseAction, .invokeCallback]) ∧
    (∀ c : Int, legacyEagerExitCode (some c) none = .num c) ∧
    legacyEagerExitCode (some 0) (some "SIGTERM") = .str "128SIGTERM" ∧
    legacyEagerExitCode (some 0) (some "SIGTERM") ≠ .num (128 + 15) := by
  refine ⟨fun proc w st code signal => ⟨rfl, rfl⟩, fun c => rfl, ?_, ?_⟩ <;> decide

/-- C2: The legacy close listener calls `cb(done)` and discards the
callback's return value: the complete observable outcome (final state and
step trace) is independent of that value, and at the concrete failing input
— child exited with code 0, callback returned the string `"SIGTERM"`
without invoking the close function — no signal is raised on the parent and
no exit is performed, contrary to the documented return-value contract.
(The modern entry point takes no close handler at all: `proxy` resolves a
promise with the close function, see `proxyOnClose`.) -/
theorem c2_callback_return_value_ignored :
    (∀ (proc : ParentHandle) (w : Wiring) (st : Sys) (code : Option Int)
       (signal : Option String) (d : Bool) (v1 v2 : JSVal),
      legacyAfterClose proc w st code signal ⟨v1, d⟩ =
        legacyAfterClose proc w st code signal ⟨v2, d⟩) ∧
    termEffects (legacyAfterClose sampleProc sampleLegacyWiring
        sampleLegacyWiring.sys (some 0) none ⟨.str "SIGTERM", false⟩).2 = [] := by
  exact ⟨fun proc w st code signal d v1 v2 => rfl, by decide⟩

/-- The complete step trace of the modern entry point: wiring at spawn,
the close event, and one invocation of the resolved close function. -/
def modernFullSteps (p : ParentHandle) (cs : ChildStreams) (file : String)
    (args : List String) (parent0 : ProcState) (ec0 : JSVal)
    (code : Option Int) (signal : Option String) : List Step :=
  let w := proxySetup p cs file args parent0 ec0
  let o := proxyOnClose p w cs w.sys code signal
  w.steps ++ o.2.1 ++ (o.2.2.run o.1).2

/-- The complete step trace of the legacy entry point: wiring at spawn,
the close event, and the callback's interaction with the close function. -/
def legacyFullSteps (proc : ParentHandle) (program : String)
    (args : List String) (parent0 : ProcState) (ec0 : JSVal)
    (code : Option Int) (signal : Option String) (r : CbRun) : List Step :=
  let w := legacySetup proc program args parent0 ec0
  (legacySetup proc program args parent0 ec0).steps ++
    (legacyAfterClose proc w w.sys code signal r).2

/-- C3: No watchdog helper process exists in the source: across the entire
lifetime of either entry point (spawn, close, close-function invocation)
exactly one process — the child itself — is created, and the only
parent-death mitigation is the parent-exit listener, which sends SIGHUP to
the child. -/
theorem c3_no_watchdog_process :
    (∀ (p : ParentHandle) (cs : ChildStreams) (file : String)
       (args : List String) (parent0 : ProcState) (ec0 : JSVal)
       (code : Option Int) (signal : Option String),
      countSpawnSteps (modernFullSteps p cs file args parent0 ec0 code signal) = 1) ∧
    (∀ (proc : ParentHandle) (program : String) (args : List String)
       (parent0 : ProcState) (ec0 : JSVal) (code : Option Int)
       (signal : Option String) (r : CbRun),
      countSpawnSteps (legacyFullSteps proc program args parent0 ec0 code signal r) = 1) ∧
    effectsOf onParentExitSteps = [.childKill "SIGHUP"] := by
  refine ⟨?_, ?_, rfl⟩
  · intro p cs file args parent0 ec0 code signal
    cases signal with
    | none =>
      simp [modernFullSteps, proxySetup, proxyOnClose, mkProxyCloseAction,
        countSpawnSteps, List.countP_append, List.countP_cons]
    | some s =>
      cases hp : p.isRealProcess <;>
        simp [modernFullSteps, proxySetup, proxyOnClose, mkProxyCloseAction,
          countSpawnSteps, List.countP_append, List.countP_cons, hp]
  · intro proc program args parent0 ec0 code signal r
    rcases r with ⟨v, d⟩
    cases signal with
    | none =>
      cases hs : proc.hasSend <;> cases d <;>
        simp [legacyFullSteps, legacySetup, legacyAfterClose, legacyOnClose,
          mkLegacyCloseAction, countSpawnSteps, List.countP_append,
          List.countP_cons, hs]
    | some s =>
      by_cases he : s = "" <;> cases hs : proc.hasSend <;> cases d <;>
        simp [legacyFullSteps, legacySetup, legacyAfterClose, legacyOnClose,
          mkLegacyCloseAction, countSpawnSteps, List.countP_append,
          List.countP_cons, hs, he]

/-- C9 counterexample: the close action produced for a child that exited
with code 0 is not idempotent — a second invocation issues a second
`parent.exit` call: the termination effects of two invocations are not
those of one. -/
theorem c9_counterexample :
    ¬ (termEffects (runTwiceSteps
          (mkProxyCloseAction ⟨1, false, false⟩ (some 0) none) sampleSys) =
       termEffects ((mkProxyCloseAction ⟨1, false, false⟩ (some 0) none).run
          sampleSys).2) := by
  decide

/-- C9 (amended): Every close action produced (modern or legacy path) is
deterministic under repeated invocation but not idempotent: a second
invocation performs exactly the same step trace again — including exactly
one more parent-termination call — rather than being guarded into a
no-op. -/
theorem c9_close_action_repeat_invocation :
    (∀ (p : ParentHandle) (code : Option Int) (signal : Option String) (st : Sys),
      runTwiceSteps (mkProxyCloseAction p code signal) st =
        ((mkProxyCloseAction p code signal).run st).2 ++
          ((mkProxyCloseAction p code signal).run st).2 ∧
      (termEffects ((mkProxyCloseAction p code signal).run st).2).length = 1) ∧
    (∀ (proc : ParentHandle) (sigAtt : List Listener) (exitL : Listener)
       (code : Option Int) (signal : Option String) (st : Sys),
      runTwiceSteps (mkLegacyCloseAction proc sigAtt exitL code signal) st =
        ((mkLegacyCloseAction proc sigAtt exitL code signal).run st).2 ++
          ((mkLegacyCloseAction proc sigAtt exitL code signal).run st).2 ∧
      (termEffects ((mkLegacyCloseAction proc sigAtt exitL code signal).run
          st).2).length = 1) := by
  constructor
  · intro p code signal st
    cases signal with
    | none => exact ⟨rfl, rfl⟩
    | some s =>
      cases hp : p.isRealProcess <;>
        refine ⟨?_, ?_⟩ <;>
          simp [runTwiceSteps, mkProxyCloseAction, termEffects, effectsOf,
            isTermEffect, hp]
  · intro proc sigAtt exitL code signal st
    cases signal with
    | none =>
      refine ⟨?_, ?_⟩ <;>
        simp [runTwiceSteps, mkLegacyCloseAction, termEffects, effectsOf,
          isTermEffect, detachAll, ProcState.removeListener]
    | some s =>
      by_cases he : s = "" <;>
        refine ⟨?_, ?_⟩ <;>
          simp [runTwiceSteps, mkLegacyCloseAction, termEffects, effectsOf,
            isTermEffect, he, detachAll, ProcState.removeListener]

/-- C6 counterexample: in the legacy entry point the close action is
constructed with no relay teardown before it — at a concrete close event
(child exited with code 1) the signal-relay detach does not occur before
the close action is constructed. -/
theorem c6_counterexample :
    Step.detachSignals ∉ stepsBeforeConstruct
      (legacyOnClose sampleProc sampleLegacyWiring sampleLegacyWiring.sys
        (some 1) none).2.1 := by
  decide

/-- C6 (amended): In the modern entry point, teardown of all attached
relays (messages, streams, signals) and the removal of the parent-exit
listener occur before the close action is constructed.  In the legacy
entry point the close action is constructed immediately upon close, with
only the eager exit-code assignment before it (no teardown).  In both
entry points the parent-exit listener is removed before any termination of
the parent is attempted. -/
theorem c6_teardown_ordering :
    (∀ (p : ParentHandle) (w : Wiring) (cs : ChildStreams) (st : Sys)
       (code : Option Int) (signal : Option String),
      Step.detachMessages ∈
        stepsBeforeConstruct (proxyOnClose p w cs st code signal).2.1 ∧
      Step.detachStreams ∈
        stepsBeforeConstruct (proxyOnClose p w cs st code signal).2.1 ∧
      Step.detachSignals ∈
        stepsBeforeConstruct (proxyOnClose p w cs st code signal).2.1 ∧
      Step.removeParentExitListener ∈
        stepsBeforeConstruct (proxyOnClose p w cs st code signal).2.1 ∧
      removalPrecedesTermination
        ((proxyOnClose p w cs st code signal).2.1 ++
          ((proxyOnClose p w cs st code signal).2.2.run
            (proxyOnClose p w cs st code signal).1).2) = true) ∧
    (∀ (proc : ParentHandle) (w : Wiring) (st : Sys) (code : Option Int)
       (signal : Option String) (r : CbRun),
      stepsBeforeConstruct (legacyOnClose proc w st code signal).2.1 =
        [.setParentExitCode (legacyEagerExitCode code signal)] ∧
      removalPrecedesTermination
        (legacyAfterClose proc w st code signal r).2 = true) := by
  constructor
  · intro p w cs st code signal
    refine ⟨?_, ?_, ?_, ?_, rfl⟩ <;>
      simp [proxyOnClose, stepsBeforeConstruct]
  · intro proc w st code signal r
    refine ⟨rfl, ?_⟩
    rcases r with ⟨v, d⟩
    cases d with
    | false => rfl
    | true =>
      cases signal with
      | none => rfl
      | some s => by_cases he : s = "" <;> simp [legacyAfterClose, legacyOnClose,
          mkLegacyCloseAction, removalPrecedesTermination, he]

/-! ## Teardown chains -/

/-- Removing the message listener, detaching the signal relay, and removing
the exit listener restores a parent listener table that held `L` before the
wiring (`hasSend` case). -/
theorem teardown_chain (L : List Listener) (n : Nat) (es : List String)
    (hL : ∀ l ∈ L, l.id < n) (m e : Listener)
    (hm : n + es.length ≤ m.id) (he : n + es.length ≤ e.id) (k : Nat) :
    eraseFirst
      (detachAll
        ⟨eraseFirst (((L ++ mkLs n es) ++ [m]) ++ [e]) m, k⟩
        (mkLs n es)).listeners e = L := by
  have hmL : m ∉ L ++ mkLs n es := by
    intro hmem
    rcases List.mem_append.mp hmem with h | h
    · exact absurd (hL _ h) (by omega)
    · exact absurd (mem_mkLs_id _ _ _ h).2 (by omega)
  have h1 : ((L ++ mkLs n es) ++ [m]) ++ [e] = (L ++ mkLs n es) ++ (m :: [e]) := by
    simp
  rw [h1, eraseFirst_append_of_not_mem _ _ _ hmL]
  have h2 : (L ++ mkLs n es) ++ [e] = L ++ (mkLs n es ++ [e]) := by simp
  rw [h2, detachAll_mkLs es n L [e] k hL]
  have heL : e ∉ L := fun hmem => absurd (hL _ hmem) (by omega)
  have h3 : (ProcState.mk (L ++ [e]) k).listeners = L ++ e :: [] := rfl
  rw [h3, eraseFirst_append_of_not_mem _ _ _ heL, List.append_nil]

/-- The same chain without a message listener (`hasSend` false). -/
theorem teardown_chain_nomsg (L : List Listener) (n : Nat) (es : List String)
    (hL : ∀ l ∈ L, l.id < n) (e : Listener) (he : n + es.length ≤ e.id) (k : Nat) :
    eraseFirst
      (detachAll ⟨(L ++ mkLs n es) ++ [e], k⟩ (mkLs n es)).listeners e = L := by
  have h2 : (L ++ mkLs n es) ++ [e] = L ++ (mkLs n es ++ [e]) := by simp
  rw [h2, detachAll_mkLs es n L [e] k hL]
  have heL : e ∉ L := fun hmem => absurd (hL _ hmem) (by omega)
  have h3 : (ProcState.mk (L ++ [e]) k).listeners = L ++ e :: [] := rfl
  rw [h3, eraseFirst_append_of_not_mem _ _ _ heL, List.append_nil]

/-- The legacy close action's teardown: detaching the signal relay and
removing the exit listener from the legacy wiring leaves exactly the
pre-wiring table plus the never-detached message listener. -/
theorem teardown_chain_legacy (L : List Listener) (n : Nat) (es : List String)
    (hL : ∀ l ∈ L, l.id < n) (m e : Listener)
    (hm : n + es.length ≤ m.id) (he : m.id < e.id) (k : Nat) :
    eraseFirst
      (detachAll ⟨((L ++ mkLs n es) ++ [m]) ++ [e], k⟩
        (mkLs n es)).listeners e = L ++ [m] := by
  have h2 : ((L ++ mkLs n es) ++ [m]) ++ [e] = L ++ (mkLs n es ++ [m, e]) := by
    simp
  rw [h2, detachAll_mkLs es n L [m, e] k hL]
  have heLm : e ∉ L ++ [m] := by
    intro hmem
    rcases List.mem_append.mp hmem with h | h
    · exact absurd (hL _ h) (by omega)
    · rcases List.mem_singleton.mp h with rfl
      omega
  have h3 : (ProcState.mk (L ++ [m, e]) k).listeners = (L ++ [m]) ++ e :: [] := by
    simp
  rw [h3, eraseFirst_append_of_not_mem _ _ _ heLm, List.append_nil]

/-- After the modern close event, the parent listener table is exactly what
it was before the wiring, the child retains only its close listener, and
all pipes are gone. -/
theorem proxyOnClose_restores (p : ParentHandle) (cs : ChildStreams)
    (file : String) (args : List String) (parent0 : ProcState) (ec0 : JSVal)
    (code : Option Int) (signal : Option String) (hWF : parent0.WF) :
    ((proxyOnClose p (proxySetup p cs file args parent0 ec0) cs
        (proxySetup p cs file args parent0 ec0).sys code signal).1).parent.listeners
        = parent0.listeners ∧
    ((proxyOnClose p (proxySetup p cs file args parent0 ec0) cs
        (proxySetup p cs file args parent0 ec0).sys code signal).1).child.listeners
        = [(proxySetup p cs file args parent0 ec0).closeL] ∧
    ((proxyOnClose p (proxySetup p cs file args parent0 ec0) cs
        (proxySetup p cs file args parent0 ec0).sys code signal).1).pipes = [] := by
  rcases parent0 with ⟨L, n⟩
  have hL : ∀ l ∈ L, l.id < n := fun l hl => hWF l hl
  cases hp : p.hasSend
  case false =>
    refine ⟨?_, ?_, ?_⟩ <;>
      simp only [proxySetup, proxyMessagesAttach, hp, Bool.false_eq_true, if_false,
        attachAll_eq, ProcState.addListener, proxyOnClose, unproxyMessagesState,
        ProcState.removeListener, unproxyStreams_pipeNames]
    · exact teardown_chain_nomsg L n signalExitSignals hL
        ⟨"exit", n + signalExitSignals.length⟩ (Nat.le_refl _) _
    · rfl
  case true =>
    refine ⟨?_, ?_, ?_⟩ <;>
      simp only [proxySetup, proxyMessagesAttach, hp, if_true,
        attachAll_eq, ProcState.addListener, proxyOnClose, unproxyMessagesState,
        ProcState.removeListener, unproxyStreams_pipeNames]
    · exact teardown_chain L n signalExitSignals hL
        ⟨"message", n + signalExitSignals.length⟩
        ⟨"exit", n + signalExitSignals.length + 1⟩
        (Nat.le_refl _) (Nat.le_succ _) _
    · simp [eraseFirst]

/-- After the legacy close event *and* one invocation of the close action,
the parent still holds the message-relay listener: only the signal relay
and the exit listener were removed (the message relay is never torn down on
this path). -/
theorem legacy_invoke_parent (proc : ParentHandle) (program : String)
    (args : List String) (parent0 : ProcState) (ec0 : JSVal)
    (code : Option Int) (signal : Option String) (hWF : parent0.WF)
    (hs : proc.hasSend = true) :
    (((legacyOnClose proc (legacySetup proc program args parent0 ec0)
        (legacySetup proc program args parent0 ec0).sys code signal).2.2.run
      (legacyOnClose proc (legacySetup proc program args parent0 ec0)
        (legacySetup proc program args parent0 ec0).sys code
          signal).1).1).parent.listeners =
      parent0.listeners.filter (fun l => l.event ≠ "message") ++
        [⟨"message", parent0.nextId + signalExitSignals.length⟩] := by
  rcases parent0 with ⟨L, n⟩
  have hL : ∀ l ∈ L, l.id < n := fun l hl => hWF l hl
  have hF : ∀ l ∈ L.filter (fun l => l.event ≠ "message"), l.id < n :=
    fun l hl => hL l (List.mem_of_mem_filter hl)
  have key := teardown_chain_legacy (L.filter (fun l => l.event ≠ "message")) n
    signalExitSignals hF
    ⟨"message", n + signalExitSignals.length⟩
    ⟨"exit", n + signalExitSignals.length + 1⟩
    (Nat.le_refl _) (Nat.lt_succ_self _)
  cases signal with
  | none =>
    simp only [legacySetup, legacyOnClose, mkLegacyCloseAction,
      proxyMessagesAttach, hs, if_true, attachAll_eq, ProcState.addListener,
      ProcState.removeAllListeners, ProcState.removeListener]
    exact key _
  | some s =>
    by_cases he : s = "" <;>
      simp only [legacySetup, legacyOnClose, mkLegacyCloseAction,
        proxyMessagesAttach, hs, if_true, attachAll_eq, ProcState.addListener,
        ProcState.removeAllListeners, ProcState.removeListener, he,
        if_true, if_false, Bool.false_eq_true] <;>
      exact key _

/-- The signal relay and exit listener registered by the legacy wiring. -/
theorem legacySetup_wiring (proc : ParentHandle) (program : String)
    (args : List String) (parent0 : ProcState) (ec0 : JSVal)
    (hs : proc.hasSend = true) :
    (legacySetup proc program args parent0 ec0).sigAtt =
      mkLs parent0.nextId signalExitSignals ∧
    (legacySetup proc program args parent0 ec0).exitL =
      ⟨"exit", parent0.nextId + signalExitSignals.length + 1⟩ := by
  rcases parent0 with ⟨L, n⟩
  constructor <;>
    simp [legacySetup, proxyMessagesAttach, hs, attachAll_eq,
      ProcState.addListener, ProcState.removeAllListeners]

/-- Invoking a legacy close action on a state that holds none of its signal
listeners and not its exit listener leaves the state unchanged. -/
theorem legacy_run_noop (proc : ParentHandle) (sigAtt : List Listener)
    (exitL : Listener) (code : Option Int) (signal : Option String) (st : Sys)
    (h1 : ∀ l ∈ sigAtt, l ∉ st.parent.listeners)
    (h2 : exitL ∉ st.parent.listeners) :
    ((mkLegacyCloseAction proc sigAtt exitL code signal).run st).1 = st := by
  cases signal with
  | none =>
    simp only [mkLegacyCloseAction, detachAll_of_not_mem _ _ h1,
      ProcState.removeListener, eraseFirst_of_not_mem _ _ h2]
  | some s =>
    by_cases he : s = "" <;>
      simp only [mkLegacyCloseAction, detachAll_of_not_mem _ _ h1,
        ProcState.removeListener, eraseFirst_of_not_mem _ _ h2, he,
        if_true, if_false, Bool.false_eq_true]

/-- Detaching the signal relay a second time is a no-op. -/
theorem detachAll_attachAll_twice (parent0 : ProcState) (es : List String)
    (hWF : parent0.WF) :
    detachAll (detachAll (attachAll parent0 es).1 (attachAll parent0 es).2)
        (attachAll parent0 es).2 =
      detachAll (attachAll parent0 es).1 (attachAll parent0 es).2 := by
  rcases parent0 with ⟨L, n⟩
  have hL : ∀ l ∈ L, l.id < n := fun l hl => hWF l hl
  rw [attachAll_eq]
  have h1 : detachAll ⟨L ++ mkLs n es, n + es.length⟩ (mkLs n es) =
      ⟨L, n + es.length⟩ := by
    have h := detachAll_mkLs es n L [] (n + es.length) hL
    simpa using h
  rw [h1]
  exact detachAll_of_not_mem _ _ (fun l hl hmem => by
    have h2 : n ≤ l.id := (mem_mkLs_id _ _ _ hl).1
    have h3 : l.id < n := hL l hmem
    omega)

/-- C5 counterexample: in the legacy entry point the relays are *not* torn
down at the moment the child's close event is observed — at a concrete
close event the parent still holds a message-relay listener. -/
theorem c5_counterexample :
    ¬ ((legacyOnClose sampleProc sampleLegacyWiring sampleLegacyWiring.sys
        (some 0) none).1.parent.listeners.filter
          (fun l => l.event = "message") = []) := by
  decide

/-- C5 (amended): In the modern entry point every relay attached at spawn
(signals, streams, messages) is torn down at the moment the child's close
event is observed, leaving zero residual relay listeners and pipes; in the
legacy entry point nothing is torn down at close — the signal relay is
detached only when the close action is invoked, and the message relay is
never detached.  Detach operations are safe under repetition: the modern
close action never re-touches listener state, detaching a message relay
that attached nothing is a no-op, a second invocation of the legacy close
action leaves the state unchanged, and detaching the signal relay a second
time is a no-op. -/
theorem c5_relay_teardown :
    (∀ (p : ParentHandle) (cs : ChildStreams) (file : String)
       (args : List String) (parent0 : ProcState) (ec0 : JSVal)
       (code : Option Int) (signal : Option String),
      parent0.WF →
      ((proxyOnClose p (proxySetup p cs file args parent0 ec0) cs
          (proxySetup p cs file args parent0 ec0).sys code
            signal).1.parent.listeners = parent0.listeners ∧
       (proxyOnClose p (proxySetup p cs file args parent0 ec0) cs
          (proxySetup p cs file args parent0 ec0).sys code
            signal).1.child.listeners =
          [(proxySetup p cs file args parent0 ec0).closeL] ∧
       (proxyOnClose p (proxySetup p cs file args parent0 ec0) cs
          (proxySetup p cs file args parent0 ec0).sys code signal).1.pipes = [])) ∧
    (∀ (proc : ParentHandle) (program : String) (args : List String)
       (parent0 : ProcState) (ec0 : JSVal) (code : Option Int)
       (signal : Option String),
      parent0.WF → proc.hasSend = true →
      ((legacyOnClose proc (legacySetup proc program args parent0 ec0)
          (legacySetup proc program args parent0 ec0).sys code signal).1.parent =
        (legacySetup proc program args parent0 ec0).sys.parent ∧
       (((legacyOnClose proc (legacySetup proc program args parent0 ec0)
            (legacySetup proc program args parent0 ec0).sys code signal).2.2.run
          (legacyOnClose proc (legacySetup proc program args parent0 ec0)
            (legacySetup proc program args parent0 ec0).sys code
              signal).1).1).parent.listeners =
          parent0.listeners.filter (fun l => l.event ≠ "message") ++
            [⟨"message", parent0.nextId + signalExitSignals.length⟩] ∧
       ((legacyOnClose proc (legacySetup proc program args parent0 ec0)
            (legacySetup proc program args parent0 ec0).sys code signal).2.2.run
          ((legacyOnClose proc (legacySetup proc program args parent0 ec0)
              (legacySetup proc program args parent0 ec0).sys code signal).2.2.run
            (legacyOnClose proc (legacySetup proc program args parent0 ec0)
              (legacySetup proc program args parent0 ec0).sys code
                signal).1).1).1 =
        ((legacyOnClose proc (legacySetup proc program args parent0 ec0)
            (legacySetup proc program args parent0 ec0).sys code signal).2.2.run
          (legacyOnClose proc (legacySetup proc program args parent0 ec0)
            (legacySetup proc program args parent0 ec0).sys code
              signal).1).1)) ∧
    (∀ (p : ParentHandle) (code : Option Int) (signal : Option String) (st : Sys),
      ((mkProxyCloseAction p code signal).run st).1 = st) ∧
    (∀ (parent child : ProcState),
      unproxyMessagesState none parent child = (parent, child)) ∧
    (∀ (parent0 : ProcState) (es : List String), parent0.WF →
      detachAll (detachAll (attachAll parent0 es).1 (attachAll parent0 es).2)
          (attachAll parent0 es).2 =
        detachAll (attachAll parent0 es).1 (attachAll parent0 es).2) := by
  refine ⟨?_, ?_, ?_, fun parent child => rfl, detachAll_attachAll_twice⟩
  · intro p cs file args parent0 ec0 code signal hWF
    exact proxyOnClose_restores p cs file args parent0 ec0 code signal hWF
  · intro proc program args parent0 ec0 code signal hWF hs
    have hw := legacySetup_wiring proc program args parent0 ec0 hs
    have hinv := legacy_invoke_parent proc program args parent0 ec0 code signal hWF hs
    refine ⟨rfl, hinv, ?_⟩
    refine legacy_run_noop proc _ _ code signal _ ?_ ?_
    · intro l hl hmem
      rw [hw.1] at hl
      rw [hinv] at hmem
      have hid := mem_mkLs_id _ _ _ hl
      rcases List.mem_append.mp hmem with h | h
      · have := hWF l (List.mem_of_mem_filter h)
        omega
      · rcases List.mem_singleton.mp h with rfl
        simp at hid
    · rw [hw.2]
      intro hmem
      rw [hinv] at hmem
      rcases List.mem_append.mp hmem with h | h
      · have := hWF _ (List.mem_of_mem_filter h)
        simp at this
        omega
      · simp at h
  · intro p code signal st
    cases signal <;> rfl

/-- C5 witness: the amended theorem applied at concrete inputs. -/
theorem c5_relay_teardown_witness :
    (proxyOnClose sampleProc
        (proxySetup sampleProc ⟨true, true, true⟩ "cat" ["file"]
          sampleParentState .undefined) ⟨true, true, true⟩
        (proxySetup sampleProc ⟨true, true, true⟩ "cat" ["file"]
          sampleParentState .undefined).sys (some 0) none).1.parent.listeners =
      sampleParentState.listeners ∧
    (((legacyOnClose sampleProc sampleLegacyWiring sampleLegacyWiring.sys
        (some 0) none).2.2.run
      (legacyOnClose sampleProc sampleLegacyWiring sampleLegacyWiring.sys
        (some 0) none).1).1).parent.listeners =
      sampleParentState.listeners.filter (fun l => l.event ≠ "message") ++
        [⟨"message", sampleParentState.nextId + signalExitSignals.length⟩] :=
  ⟨(c5_relay_teardown.1 sampleProc ⟨true, true, true⟩ "cat" ["file"]
      sampleParentState .undefined (some 0) none (by decide)).1,
   ((c5_relay_teardown.2.1 sampleProc "cat" ["file"] sampleParentState .undefined
      (some 0) none (by decide) (by decide)).2).1⟩

/-- The parent listener table right after the legacy wiring (IPC case):
the caller's non-message listeners, the signal relay, the relay's message
listener, and the exit listener. -/
theorem legacySetup_parent (proc : ParentHandle) (program : String)
    (args : List String) (parent0 : ProcState) (ec0 : JSVal)
    (hs : proc.hasSend = true) :
    (legacySetup proc program args parent0 ec0).sys.parent.listeners =
      ((parent0.listeners.filter (fun l => l.event ≠ "message") ++
          mkLs parent0.nextId signalExitSignals) ++
        [⟨"message", parent0.nextId + signalExitSignals.length⟩]) ++
      [⟨"exit", parent0.nextId + signalExitSignals.length + 1⟩] := by
  rcases parent0 with ⟨L, n⟩
  simp [legacySetup, proxyMessagesAttach, hs, attachAll_eq,
    ProcState.addListener, ProcState.removeAllListeners]

/-- The modern wiring only appends to the parent listener table. -/
theorem proxySetup_parent_extends (p : ParentHandle) (cs : ChildStreams)
    (file : String) (args : List String) (parent0 : ProcState) (ec0 : JSVal) :
    ∃ rest, (proxySetup p cs file args parent0 ec0).sys.parent.listeners =
      parent0.listeners ++ rest := by
  rcases parent0 with ⟨L, n⟩
  cases hp : p.hasSend
  case false =>
    refine ⟨mkLs n signalExitSignals ++
      [⟨"exit", n + signalExitSignals.length⟩], ?_⟩
    simp [proxySetup, proxyMessagesAttach, hp, attachAll_eq,
      ProcState.addListener]
  case true =>
    refine ⟨mkLs n signalExitSignals ++
      ([⟨"message", n + signalExitSignals.length⟩] ++
       [⟨"exit", n + signalExitSignals.length + 1⟩]), ?_⟩
    simp [proxySetup, proxyMessagesAttach, hp, attachAll_eq,
      ProcState.addListener]

/-- C10: When the parent process has an IPC send capability, the legacy
entry point removes every pre-existing `"message"` listener from the parent
before attaching its own message relay — afterwards the parent holds
exactly one message listener (the relay's), and no caller-installed message
listener survives.  The modern entry point removes nothing: every
pre-existing parent listener is still registered after its wiring. -/
theorem c10_legacy_message_listener_purge :
    (∀ (proc : ParentHandle) (program : String) (args : List String)
       (parent0 : ProcState) (ec0 : JSVal),
      parent0.WF → proc.hasSend = true →
      ((legacySetup proc program args parent0 ec0).sys.parent.listeners.filter
          (fun l => l.event = "message")).length = 1 ∧
      (∀ l ∈ parent0.listeners, l.event = "message" →
        l ∉ (legacySetup proc program args parent0 ec0).sys.parent.listeners)) ∧
    (∀ (p : ParentHandle) (cs : ChildStreams) (file : String)
       (args : List String) (parent0 : ProcState) (ec0 : JSVal),
      ∀ l ∈ parent0.listeners,
        l ∈ (proxySetup p cs file args parent0 ec0).sys.parent.listeners) := by
  constructor
  · intro proc program args parent0 ec0 hWF hs
    rw [legacySetup_parent proc program args parent0 ec0 hs]
    constructor
    · have hA : (parent0.listeners.filter
          (fun l => l.event ≠ "message")).filter
            (fun l => l.event = "message") = [] := by
        rw [List.filter_eq_nil_iff]
        intro a ha hq
        have hp := List.of_mem_filter ha
        simp at hp hq
        exact hp hq
      have hB : (mkLs parent0.nextId signalExitSignals).filter
          (fun l => l.event = "message") = [] := by
        rw [List.filter_eq_nil_iff]
        intro a ha hq
        have hev := mem_mkLs_event _ _ _ ha
        simp at hq
        rw [hq] at hev
        revert hev
        decide
      simp [List.filter_append, hA, hB]
    · intro l hmem hlev hbad
      have hid := hWF l hmem
      rcases List.mem_append.mp hbad with h | h
      · rcases List.mem_append.mp h with h | h
        · rcases List.mem_append.mp h with h | h
          · have hp := List.of_mem_filter h
            simp at hp
            exact hp hlev
          · have hev := mem_mkLs_event _ _ _ h
            rw [hlev] at hev
            revert hev
            decide
        · rcases List.mem_singleton.mp h with rfl
          have hid2 : parent0.nextId + signalExitSignals.length <
              parent0.nextId := hid
          omega
      · rcases List.mem_singleton.mp h with rfl
        have hev : ("exit" : String) = "message" := hlev
        exact absurd hev (by decide)
  · intro p cs file args parent0 ec0 l hmem
    obtain ⟨rest, hr⟩ := proxySetup_parent_extends p cs file args parent0 ec0
    rw [hr]
    exact List.mem_append_left _ hmem

/-- C10 witness: the theorem applied at a concrete parent with one
caller-installed message listener. -/
theorem c10_legacy_message_listener_purge_witness :
    ((legacySetup sampleProc "cat" ["file"] sampleParentState
        .undefined).sys.parent.listeners.filter
          (fun l => l.event = "message")).length = 1 ∧
    Listener.mk "message" 0 ∉
      (legacySetup sampleProc "cat" ["file"] sampleParentState
        .undefined).sys.parent.listeners :=
  ⟨(c10_legacy_message_listener_purge.1 sampleProc "cat" ["file"]
      sampleParentState .undefined (by decide) (by decide)).1,
   (c10_legacy_message_listener_purge.1 sampleProc "cat" ["file"]
      sampleParentState .undefined (by decide) (by decide)).2
     ⟨"message", 0⟩ (by decide) (by decide)⟩

end ForegroundChild
